import Mathlib

/-!
Shallow embedding of the core of `src/main.js` (interactive avatar scene):
- the render-loop halo-opacity computation (`animate`, lines 600-635),
- the palette switcher (`applyPalette`, lines 347-369),
- the audio buffer cache (`loadAudioBuffer`, lines 401-413),
- the audio switch coroutine (`switchAudio`, lines 415-441), modeled as a
  small-step event system over explicit session state (the JS event loop is
  single threaded; code between `await` points runs atomically),
- the animation switch coroutine (`switchAnimation`, lines 380-399),
- the avatar acquisition routine (`loadGvrmAvatar`, lines 544-586, together
  with the error handling in `init`, lines 639-657),
- the simplex noise generator (`SimplexNoise` constructor and its `noise2D`
  method, lines 671-757).
JS numbers are modeled as `ℚ` (the claims settled here do not depend on
floating-point rounding), JS array indices as `ℤ` or `ℕ`, and promises by
explicit completion events.
-/

/-! ### Render loop: halo opacity (main.js lines 607-621) -/

-- JS Math.max / Math.min on (non-NaN) numbers.
def jsMax (a b : ℚ) : ℚ := if a ≤ b then b else a

def jsMin (a b : ℚ) : ℚ := if a ≤ b then a else b

-- THREE.MathUtils.clamp (value, min, max) = Math.max (min, Math.min (max, value)).
def clampQ (value lo hi : ℚ) : ℚ := jsMax lo (jsMin hi value)

-- main.js line 621:
-- halo.material.opacity =
--   THREE.MathUtils.clamp (haloBaseOpacity * (0.7 + pulse * 0.6), 0.02, 0.6)
def haloOpacityFrame (haloBaseOpacity pulse : ℚ) : ℚ :=
  clampQ (haloBaseOpacity * (7/10 + pulse * (6/10))) (2/100) (6/10)

-- main.js lines 607-610: amplitude sample when an analyzer is active:
-- clamp (getAverageFrequency () / 128, 0.2, 1.8)
def pulseFromAnalyserAvg (avg : ℚ) : ℚ := clampQ (avg / 128) (1/5) (9/5)

/-! ### Palettes and applyPalette (main.js lines 42-100, 347-369) -/

structure PaletteColors where
  auroraA : String
  auroraB : String
  glow : Option ℚ
  halo : String
  haloOpacity : Option ℚ
  overlay : String
  background : String
  floorEmissive : String
  floorEmissiveIntensity : Option ℚ
  key : String
  keyIntensity : Option ℚ
  rim : String
  rimIntensity : Option ℚ
  hemiSky : String
  hemiGround : String
  fog : String
  deriving DecidableEq

structure PaletteOption where
  label : String
  colors : PaletteColors
  deriving DecidableEq

-- paletteOptions[0] (main.js lines 43-61); keyIntensity/rimIntensity are not
-- present in the source object (hence `none`; applyPalette falls back on them).
def auroraBloom : PaletteOption :=
  { label := "Aurora Bloom"
    colors :=
      { auroraA := "#2077ff", auroraB := "#ff5bd1", glow := some 1
        halo := "#1e6bff", haloOpacity := some (12/100)
        overlay := "rgba(33, 136, 255, 0.24)"
        background := "radial-gradient(circle at center, #0c1024 0%, #040614 42%, #010106 100%)"
        floorEmissive := "#0b1835", floorEmissiveIntensity := some (6/10)
        key := "#4aa8ff", keyIntensity := none
        rim := "#ff4d9d", rimIntensity := none
        hemiSky := "#87b9ff", hemiGround := "#050505", fog := "#040712" } }

-- paletteOptions[1] (main.js lines 62-79).
def crimsonPulse : PaletteOption :=
  { label := "Crimson Pulse"
    colors :=
      { auroraA := "#ff6a88", auroraB := "#ffc371", glow := some (5/4)
        halo := "#ff945a", haloOpacity := some (16/100)
        overlay := "rgba(255, 118, 90, 0.24)"
        background := "radial-gradient(circle at center, #1f0410 0%, #11000c 45%, #030005 100%)"
        floorEmissive := "#270d16", floorEmissiveIntensity := some (3/4)
        key := "#ff9f6b", keyIntensity := none
        rim := "#ff3d7f", rimIntensity := none
        hemiSky := "#ffe1b5", hemiGround := "#22030a", fog := "#19050d" } }

-- paletteOptions[2] (main.js lines 81-99).
def deepTide : PaletteOption :=
  { label := "Deep Tide"
    colors :=
      { auroraA := "#2bd5c5", auroraB := "#3f7bff", glow := some (92/100)
        halo := "#38c7c9", haloOpacity := some (14/100)
        overlay := "rgba(75, 180, 255, 0.2)"
        background := "radial-gradient(circle at center, #021620 0%, #00101b 45%, #00050d 100%)"
        floorEmissive := "#061c24", floorEmissiveIntensity := some (68/100)
        key := "#3fafff", keyIntensity := none
        rim := "#2fffd2", rimIntensity := none
        hemiSky := "#4dd0ff", hemiGround := "#021318", fog := "#021018" } }

def paletteOptions : List PaletteOption := [auroraBloom, crimsonPulse, deepTide]

-- JS `list[index]` for an integer index: `undefined` when out of range
-- (negative or beyond the end).
def listGetInt {α : Type} (l : List α) (i : ℤ) : Option α :=
  if 0 ≤ i then l[i.toNat]? else none

-- The scene fields mutated by applyPalette (uniforms, materials, lights, fog,
-- renderer clear color, DOM backgrounds) plus the committed palette index.
structure SceneStyleState where
  uColorA : String
  uColorB : String
  uGlow : ℚ
  haloColor : String
  haloBaseOpacity : ℚ
  haloMaterialOpacity : ℚ
  floorEmissive : String
  floorEmissiveIntensity : ℚ
  keyColor : String
  keyIntensity : ℚ
  rimColor : String
  rimIntensity : ℚ
  hemiSky : String
  hemiGround : String
  fogColor : String
  clearColor : String
  bodyBackground : String
  overlayBackground : String
  currentPaletteIndex : ℤ
  deriving DecidableEq

-- applyPalette (main.js lines 347-369).  Line 348:
-- `const palette = paletteOptions[index]?.colors ?? paletteOptions[0].colors;`
-- then every styled field is written from `palette`, and line 368 commits
-- `currentPaletteIndex = index` unconditionally.
def applyPalette (index : ℤ) (_s : SceneStyleState) : SceneStyleState :=
  let palette :=
    match listGetInt paletteOptions index with
    | some p => p.colors
    | none => auroraBloom.colors
  { uColorA := palette.auroraA
    uColorB := palette.auroraB
    uGlow := palette.glow.getD 1
    haloColor := palette.halo
    haloBaseOpacity := palette.haloOpacity.getD (12/100)
    haloMaterialOpacity := palette.haloOpacity.getD (12/100)
    floorEmissive := palette.floorEmissive
    floorEmissiveIntensity := palette.floorEmissiveIntensity.getD (6/10)
    keyColor := palette.key
    keyIntensity := palette.keyIntensity.getD (27/20)
    rimColor := palette.rim
    rimIntensity := palette.rimIntensity.getD (4/5)
    hemiSky := palette.hemiSky
    hemiGround := palette.hemiGround
    fogColor := palette.fog
    clearColor := palette.fog
    bodyBackground := palette.background
    overlayBackground :=
      "radial-gradient(circle at var(--cursor-x, 50%) var(--cursor-y, 50%), "
        ++ palette.overlay ++ ", transparent 45%)"
    currentPaletteIndex := index }

-- Scene state as constructed before the first applyPalette call
-- (material/light literals of main.js lines 189-345; DOM backgrounds start
-- empty, the renderer clear color defaults to black).
def sceneStyleStart : SceneStyleState :=
  { uColorA := "#2077ff", uColorB := "#ff5bd1", uGlow := 1
    haloColor := "#1e6bff", haloBaseOpacity := 12/100, haloMaterialOpacity := 12/100
    floorEmissive := "#0b1835", floorEmissiveIntensity := 6/10
    keyColor := "#4aa8ff", keyIntensity := 27/20
    rimColor := "#ff4d9d", rimIntensity := 4/5
    hemiSky := "#87b9ff", hemiGround := "#050505"
    fogColor := "#040712", clearColor := "#000000"
    bodyBackground := "", overlayBackground := ""
    currentPaletteIndex := 0 }

/-! ### Audio buffer cache (main.js lines 102-107, 401-413)

`audioState.buffers` maps a URL to a promise.  A promise object is identified
by the id of the decode operation it belongs to, and carries its current
state: still pending, resolved with the decoded buffer of that operation, or
rejected.  `decodeCount` counts how many underlying decode operations have
been started; it also supplies fresh decode ids. -/

inductive CacheEntry : Type
  | pending (decodeId : ℕ)
  | resolved (decodeId : ℕ)
  | rejected (decodeId : ℕ)
  deriving DecidableEq

structure CacheState where
  entries : List (String × CacheEntry)
  decodeCount : ℕ
  deriving DecidableEq

-- JS Map.set: replace the binding if the key is present, append otherwise.
def mapSet : List (String × CacheEntry) → String → CacheEntry → List (String × CacheEntry)
  | [], url, e => [(url, e)]
  | p :: rest, url, e => if p.1 = url then (url, e) :: rest else p :: mapSet rest url e

-- JS Map.has/Map.get combined.
def lookupEntry (s : CacheState) (url : String) : Option CacheEntry :=
  (s.entries.find? (fun p => p.1 == url)).map (fun p => p.2)

-- loadAudioBuffer (main.js lines 401-413): on a hit return the stored promise
-- unchanged; on a miss start a decode, store the in-flight promise
-- immediately, and return it.
def loadAudioBuffer (s : CacheState) (url : String) : CacheEntry × CacheState :=
  match lookupEntry s url with
  | some e => (e, s)
  | none =>
    let d := s.decodeCount
    (CacheEntry.pending d,
      { entries := mapSet s.entries url (CacheEntry.pending d), decodeCount := d + 1 })

-- The `.then` continuation on lines 407-410: when decode `d` resolves it runs
-- `audioState.buffers.set (url, Promise.resolve (buffer))`.
def decodeResolve (s : CacheState) (url : String) (d : ℕ) : CacheState :=
  { s with entries := mapSet s.entries url (CacheEntry.resolved d) }

-- When decode `d` rejects, no handler runs; the promise object itself (still
-- stored in the map unless it was replaced) transitions to the rejected state.
def decodeReject (s : CacheState) (url : String) (d : ℕ) : CacheState :=
  { s with
    entries := s.entries.map (fun p =>
      if p.1 == url && p.2 == CacheEntry.pending d then (p.1, CacheEntry.rejected d) else p) }

-- Concrete cache state after one failed decode of "a" from an empty cache:
-- the rejected promise of decode 0 is still stored under "a".
def cacheAfterFailedDecode : CacheState :=
  decodeReject (loadAudioBuffer ⟨[], 0⟩ "a").2 "a" 0

/-! ### Audio switching (main.js lines 37-40, 415-441)

`switchAudio` is an async function with two suspension points: the buffer
decode (`await loadAudioBuffer (option.file)`) and the audio-context resume
(`await audioState.listener.context.resume ()`).  Each in-flight call is a
task carrying its captured token (`requestId`), the requested option index,
and the suspension point it is parked at.  The code between suspension points
runs atomically (single-threaded event loop), so it is folded into the event
that ends the wait.  Decoded buffers are identified by the option index that
requested them. -/

structure AudioOption where
  label : String
  file : String
  volume : Option ℚ
  deriving DecidableEq

-- audioOptions (main.js lines 37-40).
def audioOptions : List AudioOption :=
  [ { label := "Tokyo Driftwave", file := "./assets/Tokyo%20Urban%20Haka%20No%20Ura.mp3",
      volume := some (6/10) },
    { label := "KMGY Glitch", file := "./assets/KMGY%20.mp3", volume := some (11/20) } ]

-- `option.volume ?? 0.6` (main.js line 433).
def audioVolume (index : ℕ) : ℚ :=
  ((audioOptions[index]?).bind (fun o => o.volume)).getD (6/10)

inductive AudioPhase : Type
  | waitDecode
  | waitResume
  deriving DecidableEq, BEq

structure AudioTask where
  token : ℕ
  index : ℕ
  phase : AudioPhase
  deriving DecidableEq, BEq

structure AudioConfig where
  audioRequestId : ℕ
  currentAudioIndex : ℕ
  desiredAudioIndex : ℕ
  -- `audioState.audio.setBuffer`: the decoded buffer of which option is bound.
  boundBuffer : Option ℕ
  loopOn : Bool
  volume : ℚ
  -- `some i` iff `audioState.audio.isPlaying`, playing the buffer of option i.
  playing : Option ℕ
  -- `audioAnalyser`: `some i` when an analyzer is attached to the source
  -- whose bound buffer was that of option i at creation time.
  analyser : Option ℕ
  -- count of `console.warn ("Audio load failed: ...")` in the catch block.
  failuresLogged : ℕ
  tasks : List AudioTask

inductive AudioEvent : Type
  | start (index : ℕ)
  | decodeOk (token : ℕ)
  | decodeFail (token : ℕ)
  | resumeOk (token : ℕ)
  | resumeFail (token : ℕ)
  deriving DecidableEq

def findAudioTask (c : AudioConfig) (t : ℕ) (ph : AudioPhase) : Option AudioTask :=
  c.tasks.find? (fun task => task.token == t && task.phase == ph)

def removeAudioTask (c : AudioConfig) (t : ℕ) (ph : AudioPhase) : List AudioTask :=
  c.tasks.filter (fun task => !(task.token == t && task.phase == ph))

-- One scheduler step.
--   start i      : lines 416-421 up to the first await — set desiredAudioIndex,
--                  increment audioRequestId, capture it, park at the decode.
--   decodeOk t   : the decode awaited by task t resolves — lines 421-434:
--                  drop unless the captured token still equals audioRequestId
--                  (line 422); otherwise stop any playing audio, bind the new
--                  buffer, set loop and volume, park at the resume.
--   decodeFail t : the decode rejects — the catch block logs (line 439).
--   resumeOk t   : the awaited resume resolves — lines 435-437: play the
--                  currently bound buffer, recreate the analyzer, commit
--                  currentAudioIndex.  The source performs no second token
--                  comparison here.
--   resumeFail t : the resume rejects — the catch block logs (line 439).
def audioStep (c : AudioConfig) : AudioEvent → AudioConfig
  | .start i =>
    { c with
      desiredAudioIndex := i
      audioRequestId := c.audioRequestId + 1
      tasks := c.tasks ++ [⟨c.audioRequestId + 1, i, .waitDecode⟩] }
  | .decodeOk t =>
    match findAudioTask c t .waitDecode with
    | none => c
    | some task =>
      if t = c.audioRequestId then
        { c with
          tasks := removeAudioTask c t .waitDecode ++ [⟨t, task.index, .waitResume⟩]
          playing := none
          boundBuffer := some task.index
          loopOn := true
          volume := audioVolume task.index }
      else
        { c with tasks := removeAudioTask c t .waitDecode }
  | .decodeFail t =>
    match findAudioTask c t .waitDecode with
    | none => c
    | some _ =>
      { c with
        tasks := removeAudioTask c t .waitDecode
        failuresLogged := c.failuresLogged + 1 }
  | .resumeOk t =>
    match findAudioTask c t .waitResume with
    | none => c
    | some task =>
      { c with
        tasks := removeAudioTask c t .waitResume
        playing := c.boundBuffer
        analyser := c.boundBuffer
        currentAudioIndex := task.index }
  | .resumeFail t =>
    match findAudioTask c t .waitResume with
    | none => c
    | some _ =>
      { c with
        tasks := removeAudioTask c t .waitResume
        failuresLogged := c.failuresLogged + 1 }

def audioRun (c : AudioConfig) (es : List AudioEvent) : AudioConfig :=
  es.foldl audioStep c

-- Initial session state (main.js lines 102-127, 206): nothing bound, nothing
-- playing, no analyzer, both counters 0.
def audioStart : AudioConfig :=
  { audioRequestId := 0, currentAudioIndex := 0, desiredAudioIndex := 0
    boundBuffer := none, loopOn := false, volume := 1
    playing := none, analyser := none, failuresLogged := 0, tasks := [] }

def audioEventToken : AudioEvent → Option ℕ
  | .start _ => none
  | .decodeOk t => some t
  | .decodeFail t => some t
  | .resumeOk t => some t
  | .resumeFail t => some t

-- Did a step mutate committed audio state (the committed index, the bound
-- buffer, or the playing source)?
def audioCommittedChanged (c c2 : AudioConfig) : Bool :=
  !(c.currentAudioIndex == c2.currentAudioIndex)
    || !(c.boundBuffer == c2.boundBuffer)
    || !(c.playing == c2.playing)

-- The ordering guarantee stated by the spec, as a trace checker: whenever a
-- response event mutates committed state, its captured token equals the
-- currently-highest-issued token.
def audioStaleSafe (c : AudioConfig) : List AudioEvent → Bool
  | [] => true
  | e :: es =>
    let c2 := audioStep c e
    (match audioEventToken e with
     | some t => !(audioCommittedChanged c c2) || (t == c.audioRequestId)
     | none => true)
    && audioStaleSafe c2 es

-- Trace refuting the unconditional ordering guarantee: switch to option 1,
-- its decode resolves and passes the token check (binding buffer 1, parking
-- at the resume), then a switch to option 0 is issued, then the resume of the first
-- task resolves and commits although its token is stale.
def audioTraceStaleCommit : List AudioEvent :=
  [.start 1, .decodeOk 1, .start 0, .resumeOk 1]

-- Prefix establishing a playing track (option 1 fully committed), and its
-- extension in which a switch to option 0 passes the token check (stopping
-- the playing audio, binding buffer 0) and then fails at the resume step.
def audioTracePlaying : List AudioEvent := [.start 1, .decodeOk 1, .resumeOk 1]

def audioTraceResumeRejected : List AudioEvent :=
  audioTracePlaying ++ [.start 0, .decodeOk 2, .resumeFail 2]

-- Concrete configurations used to instantiate the token-check theorems.
def audioCfgStaleDecode : AudioConfig :=
  { audioStart with audioRequestId := 2, tasks := [⟨1, 1, .waitDecode⟩] }

def audioCfgParkedResume : AudioConfig :=
  { audioStart with
    audioRequestId := 2
    boundBuffer := some 1
    tasks := [⟨1, 1, .waitResume⟩] }

def audioCfgFreshDecode : AudioConfig :=
  { audioStart with
    audioRequestId := 1
    playing := some 0
    tasks := [⟨1, 1, .waitDecode⟩] }

/-! ### Animation switching (main.js lines 30-35, 380-399)

`switchAnimation` has a single suspension point (`await gvrmInstance.changeFBX
(option.file)`).  A task is a pair (captured token, requested index). -/

structure AnimConfig where
  animationRequestId : ℕ
  currentAnimationIndex : ℕ
  desiredAnimationIndex : ℕ
  -- avatarCapabilities.supportsFBX (guard on line 383).
  supportsFBX : Bool
  -- gvrmInstance && gvrmInstance.isReady (guard on line 386).
  gvrmReady : Bool
  -- count of `console.warn ("Animation load failed: ...")` (line 397).
  failuresLogged : ℕ
  tasks : List (ℕ × ℕ)

inductive AnimEvent : Type
  | start (index : ℕ)
  | completeOk (token : ℕ)
  | completeFail (token : ℕ)
  deriving DecidableEq

-- One scheduler step.
--   start i        : lines 381-390 — set desiredAnimationIndex, bail out if the
--                    avatar lacks FBX support or is not ready, otherwise
--                    increment the token, capture it, park at changeFBX.
--   completeOk t   : changeFBX resolves — lines 393-395: commit the index only
--                    when the captured token equals animationRequestId;
--                    otherwise discard silently.
--   completeFail t : changeFBX rejects — the catch block logs (line 397).
def animStep (c : AnimConfig) : AnimEvent → AnimConfig
  | .start i =>
    if c.supportsFBX = false then { c with desiredAnimationIndex := i }
    else if c.gvrmReady = false then { c with desiredAnimationIndex := i }
    else
      { c with
        desiredAnimationIndex := i
        animationRequestId := c.animationRequestId + 1
        tasks := c.tasks ++ [(c.animationRequestId + 1, i)] }
  | .completeOk t =>
    match c.tasks.find? (fun p => p.1 == t) with
    | none => c
    | some task =>
      if t = c.animationRequestId then
        { c with
          currentAnimationIndex := task.2
          tasks := c.tasks.filter (fun p => !(p.1 == t)) }
      else
        { c with tasks := c.tasks.filter (fun p => !(p.1 == t)) }
  | .completeFail t =>
    match c.tasks.find? (fun p => p.1 == t) with
    | none => c
    | some _ =>
      { c with
        tasks := c.tasks.filter (fun p => !(p.1 == t))
        failuresLogged := c.failuresLogged + 1 }

def animRun (c : AnimConfig) (es : List AnimEvent) : AnimConfig :=
  es.foldl animStep c

-- Session state right after a successful GVRM avatar load (supportsFBX true,
-- instance ready), before any switch request; counters start at 0.
def animReady : AnimConfig :=
  { animationRequestId := 0, currentAnimationIndex := 0, desiredAnimationIndex := 0
    supportsFBX := true, gvrmReady := true, failuresLogged := 0, tasks := [] }

-- The tokens handed out to a burst of requests: request k of `idxs` (0-based)
-- captures token t0 + k.
def tokenize (t0 : ℕ) : List ℕ → List (ℕ × ℕ)
  | [] => []
  | i :: rest => (t0, i) :: tokenize (t0 + 1) rest

-- A completion event for a request older than token n (a superseded response).
def isStaleCompletion (n : ℕ) : AnimEvent → Bool
  | .start _ => false
  | .completeOk t => decide (t < n)
  | .completeFail t => decide (t < n)

/-! ### Avatar acquisition (main.js lines 7-22, 484-542, 544-586, 639-657)

The environment records the outcome of the lazy `gvrm-format` module import
(`ensureGvrmModule`) and, per candidate URL, the outcome of the extended
(GVRM) backend load and of the archive-extraction fallback load
(`loadSimpleVRMFromGvrm`). -/

structure AvatarHandle where
  source : String
  kind : String
  supportsFBX : Bool
  deriving DecidableEq

inductive LoadOutcome : Type
  | ok (h : AvatarHandle)
  | failed (e : String)
  deriving DecidableEq

def LoadOutcome.isFailed : LoadOutcome → Bool
  | .ok _ => false
  | .failed _ => true

def outcomeErr : LoadOutcome → Option String
  | .ok _ => none
  | .failed e => some e

structure AvatarCaps where
  supportsFBX : Bool
  mode : String
  deriving DecidableEq

structure AcqEnv where
  -- `GVRMClass` is non-null (module import resolved with a GVRM export).
  moduleAvailable : Bool
  -- `gvrmModuleLoadError` (set only when the import itself threw).
  moduleLoadError : Option String
  gvrmLoad : String → LoadOutcome
  fallbackLoad : String → LoadOutcome

structure AcqState where
  caps : AvatarCaps
  -- number of assignments to `avatarCapabilities` performed so far.
  capWrites : ℕ
  deriving DecidableEq

-- The `for (const candidate of candidates)` loop of loadGvrmAvatar (lines
-- 550-579) plus the post-loop error selection (lines 581-585).  `lastErr`
-- models the `lastError` variable.  On a GVRM success the handle is tagged
-- supportsFBX/mode (lines 556-557) and `avatarCapabilities` is set to
-- `{supportsFBX: true, mode: "gvrm"}` (line 558); on a fallback success the
-- SimpleVRMWrapper is tagged (lines 489-490) and `avatarCapabilities` is set
-- to `{supportsFBX: false, mode: "simple-vrm"}` (line 570).
def acquireGo (env : AcqEnv) : List String → Option String → AcqState → LoadOutcome × AcqState
  | [], lastErr, st =>
    let finalErr :=
      if !env.moduleAvailable && env.moduleLoadError.isSome && lastErr.isNone then
        env.moduleLoadError
      else lastErr
    (.failed (finalErr.getD "Unable to load any avatar assets."), st)
  | c :: rest, _lastErr, st =>
    if env.moduleAvailable then
      match env.gvrmLoad c with
      | .ok h =>
        (.ok { h with supportsFBX := true, kind := "gvrm" },
          ⟨⟨true, "gvrm"⟩, st.capWrites + 1⟩)
      | .failed _ =>
        match env.fallbackLoad c with
        | .ok h =>
          (.ok { h with supportsFBX := false, kind := "simple-vrm" },
            ⟨⟨false, "simple-vrm"⟩, st.capWrites + 1⟩)
        | .failed e => acquireGo env rest (some e) st
    else
      match env.fallbackLoad c with
      | .ok h =>
        (.ok { h with supportsFBX := false, kind := "simple-vrm" },
          ⟨⟨false, "simple-vrm"⟩, st.capWrites + 1⟩)
      | .failed e => acquireGo env rest (some e) st

-- `avatarCapabilities` starts as {supportsFBX: false, mode: "loading"}
-- (main.js lines 115-118); that initial literal is not counted as a write.
def acqStart : AcqState := ⟨⟨false, "loading"⟩, 0⟩

def loadGvrmAvatar (env : AcqEnv) (candidates : List String) : LoadOutcome × AcqState :=
  acquireGo env candidates none acqStart

-- The avatar part of init (main.js lines 646-654): on a loadGvrmAvatar
-- rejection the catch block sets `avatarCapabilities = {supportsFBX: false,
-- mode: "error"}`.
def initAvatarLoad (env : AcqEnv) (candidates : List String) : LoadOutcome × AcqState :=
  let r := loadGvrmAvatar env candidates
  match r.1 with
  | .ok h => (.ok h, r.2)
  | .failed e => (.failed e, ⟨⟨false, "error"⟩, r.2.capWrites + 1⟩)

-- A candidate fails on every backend when the extended backend does not yield
-- a handle for it (backend missing, or its load rejected) and the fallback
-- load rejects too.
def candidateFails (env : AcqEnv) (c : String) : Bool :=
  (!env.moduleAvailable || (env.gvrmLoad c).isFailed) && (env.fallbackLoad c).isFailed

-- Concrete all-failing environment used for instantiation.
def acqEnvAllFail : AcqEnv :=
  { moduleAvailable := true, moduleLoadError := none
    gvrmLoad := fun _ => .failed "gvrm load rejected"
    fallbackLoad := fun c => .failed ("fallback rejected for " ++ c) }

-- Concrete environment in which candidate "a" fails on both backends and
-- candidate "b" succeeds on the fallback backend only.
def acqEnvSecondFallback : AcqEnv :=
  { moduleAvailable := true, moduleLoadError := none
    gvrmLoad := fun _ => .failed "gvrm load rejected"
    fallbackLoad := fun c =>
      if c = "b" then .ok ⟨"b", "wrapper", false⟩
      else .failed ("fallback rejected for " ++ c) }

/-! ### Simplex noise (main.js lines 671-757)

`Math.sqrt (3)` is irrational, so the skew constants are taken as a parameter
`sqrt3 : ℚ` standing for that value; determinism and purity hold for every
value of the parameter.  `Math.floor` is `Int.floor`; `i & 255` on an int32
is `i.emod 256`; JS `%` on nonnegative operands is truncated remainder. -/

def jsTrunc (q : ℚ) : ℤ := if 0 ≤ q then ⌊q⌋ else ⌈q⌉

def jsMod (a b : ℚ) : ℚ := a - b * (jsTrunc (a / b) : ℚ)

-- Constructor body (lines 671-688): identity table of 256 entries, then a
-- seed-driven swap pass from i = 255 down to 1, then duplication to 512
-- entries via p[i & 255].
def shuffleStep (seed : ℚ) (p : List ℕ) (i : ℕ) : List ℕ :=
  let n := (⌊jsMod (seed * 10000 + (i : ℚ)) ((i : ℚ) + 1)⌋).toNat
  let pi := p.getD i 0
  let pn := p.getD n 0
  (p.set i pn).set n pi

def buildPermBase (seed : ℚ) : List ℕ :=
  (List.range 255).foldl (fun p k => shuffleStep seed p (255 - k)) (List.range 256)

def mkPerm (seed : ℚ) : List ℕ :=
  let p := buildPermBase seed
  (List.range 512).map (fun i => p.getD (i % 256) 0)

structure SimplexNoiseState where
  perm : List ℕ
  deriving DecidableEq

def SimplexNoise (seed : ℚ) : SimplexNoiseState := ⟨mkPerm seed⟩

def grad3 : List ℤ :=
  [1, 1, 0, -1, 1, 0, 1, -1, 0, -1, -1, 0,
   1, 0, 1, -1, 0, 1, 1, 0, -1, -1, 0, -1,
   0, 1, 1, 0, -1, 1, 0, 1, -1, 0, -1, -1]

-- noise2D (lines 690-757), in state-passing style: the returned state is the
-- generator state after the call (the method only reads `this.perm`).
def noise2D (sqrt3 : ℚ) (st : SimplexNoiseState) (x y : ℚ) : ℚ × SimplexNoiseState :=
  let perm := fun k => st.perm.getD k 0
  let F2 : ℚ := (1/2) * (sqrt3 - 1)
  let G2 : ℚ := (3 - sqrt3) / 6
  let s := (x + y) * F2
  let i : ℤ := ⌊x + s⌋
  let j : ℤ := ⌊y + s⌋
  let t : ℚ := ((i : ℚ) + (j : ℚ)) * G2
  let X0 : ℚ := (i : ℚ) - t
  let Y0 : ℚ := (j : ℚ) - t
  let x0 := x - X0
  let y0 := y - Y0
  let i1 : ℕ := if y0 < x0 then 1 else 0
  let j1 : ℕ := if y0 < x0 then 0 else 1
  let x1 := x0 - (i1 : ℚ) + G2
  let y1 := y0 - (j1 : ℚ) + G2
  let x2 := x0 - 1 + 2 * G2
  let y2 := y0 - 1 + 2 * G2
  let ii : ℕ := (i % 256).toNat
  let jj : ℕ := (j % 256).toNat
  let gi0 := perm (ii + perm jj) % 12
  let gi1 := perm (ii + i1 + perm (jj + j1)) % 12
  let gi2 := perm (ii + 1 + perm (jj + 1)) % 12
  let g := fun (gi comp : ℕ) => ((grad3.getD (gi * 3 + comp) 0 : ℤ) : ℚ)
  let t0 := 1/2 - x0 * x0 - y0 * y0
  let n0 := if t0 < 0 then 0 else (t0 * t0) * (t0 * t0) * (g gi0 0 * x0 + g gi0 1 * y0)
  let t1 := 1/2 - x1 * x1 - y1 * y1
  let n1 := if t1 < 0 then 0 else (t1 * t1) * (t1 * t1) * (g gi1 0 * x1 + g gi1 1 * y1)
  let t2 := 1/2 - x2 * x2 - y2 * y2
  let n2 := if t2 < 0 then 0 else (t2 * t2) * (t2 * t2) * (g gi2 0 * x2 + g gi2 1 * y2)
  (70 * (n0 + n1 + n2), st)

-- Concrete generator state used for instantiation (any table works; the
-- theorem is about purity, not about particular noise values).
def simplexProbe : SimplexNoiseState := ⟨List.replicate 512 0⟩


/-! ## Theorems -/

/-! ### Audio buffer cache lemmas -/

lemma mapSet_find_self (l : List (String × CacheEntry)) (url : String) (e : CacheEntry) :
    (mapSet l url e).find? (fun p => p.1 == url) = some (url, e) := by
  induction l with
  | nil => simp [mapSet]
  | cons p rest ih =>
    by_cases h : p.1 = url
    · simp [mapSet, h]
    · simp [mapSet, h, ih]

lemma lookupEntry_mapSet_self (entries : List (String × CacheEntry)) (n : ℕ)
    (url : String) (e : CacheEntry) :
    lookupEntry ⟨mapSet entries url e, n⟩ url = some e := by
  simp [lookupEntry, mapSet_find_self]

lemma find?_map_fst_preserve (l : List (String × CacheEntry)) (url : String)
    (g : String × CacheEntry → String × CacheEntry) (hg : ∀ p, (g p).1 = p.1) :
    (l.map g).find? (fun p => p.1 == url)
      = (l.find? (fun p => p.1 == url)).map g := by
  induction l with
  | nil => simp
  | cons p rest ih =>
    by_cases h : p.1 = url
    · have hgp : ((g p).1 == url) = true := by simp [hg, h]
      simp [List.find?, hgp, h]
    · have hgp : ((g p).1 == url) = false := by simp [hg, h]
      have hp : (p.1 == url) = false := by simp [h]
      simp [List.find?, hgp, hp, ih]

lemma loadAudioBuffer_hit (s : CacheState) (url : String) (e : CacheEntry)
    (h : lookupEntry s url = some e) : loadAudioBuffer s url = (e, s) := by
  unfold loadAudioBuffer
  rw [h]

lemma loadAudioBuffer_miss (s : CacheState) (url : String)
    (h : lookupEntry s url = none) :
    loadAudioBuffer s url
      = (CacheEntry.pending s.decodeCount,
         { entries := mapSet s.entries url (CacheEntry.pending s.decodeCount),
           decodeCount := s.decodeCount + 1 }) := by
  unfold loadAudioBuffer
  rw [h]

/-- C5: requesting the same asset twice while the first decode is in flight
stores an entry immediately, starts exactly one underlying decode, and hands
both callers the very same in-flight promise; once the entry has resolved,
a further `loadAudioBuffer` returns the resolved payload without re-fetching
and without touching the cache. -/
theorem loadAudioBuffer_single_decode (s : CacheState) (url : String)
    (h : lookupEntry s url = none) :
    (loadAudioBuffer s url).1 = CacheEntry.pending s.decodeCount ∧
    (loadAudioBuffer (loadAudioBuffer s url).2 url).1 = (loadAudioBuffer s url).1 ∧
    (loadAudioBuffer (loadAudioBuffer s url).2 url).2 = (loadAudioBuffer s url).2 ∧
    (loadAudioBuffer s url).2.decodeCount = s.decodeCount + 1 ∧
    loadAudioBuffer (decodeResolve (loadAudioBuffer s url).2 url s.decodeCount) url
      = (CacheEntry.resolved s.decodeCount,
         decodeResolve (loadAudioBuffer s url).2 url s.decodeCount) := by
  have h1 := loadAudioBuffer_miss s url h
  have h2 : lookupEntry (loadAudioBuffer s url).2 url
      = some (CacheEntry.pending s.decodeCount) := by
    rw [h1]
    exact lookupEntry_mapSet_self _ _ _ _
  have h3 := loadAudioBuffer_hit _ url _ h2
  have h4 : lookupEntry (decodeResolve (loadAudioBuffer s url).2 url s.decodeCount) url
      = some (CacheEntry.resolved s.decodeCount) := by
    rw [h1]
    exact lookupEntry_mapSet_self _ _ _ _
  have h5 := loadAudioBuffer_hit _ url _ h4
  refine ⟨?_, ?_, ?_, ?_, h5⟩
  · rw [h1]
  · rw [h3, h1]
  · rw [h3]
  · rw [h1]

/-- Witness for loadAudioBuffer_single_decode at the empty cache and the
asset "a". -/
theorem loadAudioBuffer_single_decode_witness :
    (loadAudioBuffer ⟨[], 0⟩ "a").1 = CacheEntry.pending 0 ∧
    (loadAudioBuffer (loadAudioBuffer ⟨[], 0⟩ "a").2 "a").1 = (loadAudioBuffer ⟨[], 0⟩ "a").1 ∧
    (loadAudioBuffer (loadAudioBuffer ⟨[], 0⟩ "a").2 "a").2 = (loadAudioBuffer ⟨[], 0⟩ "a").2 ∧
    (loadAudioBuffer ⟨[], 0⟩ "a").2.decodeCount = 0 + 1 ∧
    loadAudioBuffer (decodeResolve (loadAudioBuffer ⟨[], 0⟩ "a").2 "a" 0) "a"
      = (CacheEntry.resolved 0, decodeResolve (loadAudioBuffer ⟨[], 0⟩ "a").2 "a" 0) :=
  loadAudioBuffer_single_decode ⟨[], 0⟩ "a" (by decide)

/-- C3 counterexample: after a failed decode of "a" the rejected promise is
still cached, so the next `loadAudioBuffer ("a")` returns that same failed
result, leaves the cache untouched, and does NOT start a fresh decode (the
decode counter stays at 1 instead of advancing as the retry-from-scratch
behavior of the claim would require). -/
theorem loadAudioBuffer_no_retry_cex :
    (loadAudioBuffer cacheAfterFailedDecode "a").1 = CacheEntry.rejected 0 ∧
    (loadAudioBuffer cacheAfterFailedDecode "a").2 = cacheAfterFailedDecode ∧
    ¬((loadAudioBuffer cacheAfterFailedDecode "a").2.decodeCount
        = cacheAfterFailedDecode.decodeCount + 1) := by
  decide

/-- C3 (amended): the rejected promise of a failed decode stays in the cache —
when a decode rejects, the stored in-flight entry becomes the rejected entry,
and a subsequent `loadAudioBuffer` for the same asset returns that rejected
entry unchanged without starting a fresh decode. -/
theorem loadAudioBuffer_failed_entry (s : CacheState) (url : String) (d : ℕ) :
    (lookupEntry s url = some (CacheEntry.rejected d) →
      loadAudioBuffer s url = (CacheEntry.rejected d, s)) ∧
    (lookupEntry s url = some (CacheEntry.pending d) →
      lookupEntry (decodeReject s url d) url = some (CacheEntry.rejected d)) := by
  constructor
  · intro h
    exact loadAudioBuffer_hit s url _ h
  · intro h
    unfold lookupEntry at h ⊢
    unfold decodeReject
    rw [find?_map_fst_preserve]
    · cases hf : s.entries.find? (fun p => p.1 == url) with
      | none => rw [hf] at h; simp at h
      | some q =>
        rw [hf] at h
        simp at h
        have hq1 : (q.1 == url) = true := by
          have := List.find?_some hf
          simpa using this
        have hq3 : q.1 = url := by simpa using hq1
        simp [hq3, h]
    · intro p
      by_cases hc : (p.1 == url && p.2 == CacheEntry.pending d) = true
      · simp [hc]
      · simp [hc]

/-- Witness for loadAudioBuffer_failed_entry at the concrete post-failure
cache state. -/
theorem loadAudioBuffer_failed_entry_witness :
    loadAudioBuffer cacheAfterFailedDecode "a" = (CacheEntry.rejected 0, cacheAfterFailedDecode) ∧
    lookupEntry (decodeReject (loadAudioBuffer ⟨[], 0⟩ "a").2 "a" 0) "a"
      = some (CacheEntry.rejected 0) :=
  ⟨(loadAudioBuffer_failed_entry cacheAfterFailedDecode "a" 0).1 (by decide),
   (loadAudioBuffer_failed_entry (loadAudioBuffer ⟨[], 0⟩ "a").2 "a" 0).2 (by decide)⟩

/-! ### Halo opacity (C8) -/

/-- C8 counterexample: at base opacity b = 0.12 and amplitude sample a = 1.8
the render loop computes the raw product 0.12 * (0.7 + 1.8 * 0.6) = 0.2136
(= 267/1250), which lies strictly below the upper clamp bound, so the
computed opacity is NOT the upper clamp value 0.6 as the claim asserts. -/
theorem haloOpacity_boundary_cex :
    haloOpacityFrame (12/100) (9/5) = 267/1250 ∧
    haloOpacityFrame (12/100) (9/5) = (12/100) * (7/10 + (9/5) * (6/10)) ∧
    ¬(haloOpacityFrame (12/100) (9/5) = 6/10) := by
  norm_num [haloOpacityFrame, clampQ, jsMax, jsMin]

/-- C8 (amended): for base opacity b = 0.12 the halo opacity computed by the
render loop equals clamp (b * (0.7 + a * 0.6), 0.02, 0.6) at each amplitude
sample a in {0, 1, 1.8}, giving 0.084, 0.156 and 0.2136; at the amplitude
boundary a = 1.8 the raw product lies strictly inside the clamp interval, so
the computed opacity equals the raw product, not the upper clamp value. -/
theorem haloOpacity_samples :
    haloOpacityFrame (12/100) 0 = 21/250 ∧
    haloOpacityFrame (12/100) 1 = 39/250 ∧
    haloOpacityFrame (12/100) (9/5) = 267/1250 ∧
    haloOpacityFrame (12/100) (9/5) = (12/100) * (7/10 + (9/5) * (6/10)) ∧
    (2/100 : ℚ) < 267/1250 ∧ (267/1250 : ℚ) < 6/10 := by
  norm_num [haloOpacityFrame, clampQ, jsMax, jsMin]

/-! ### applyPalette (C10) -/

/-- C10: for every integer index with no corresponding palette entry,
applyPalette does not fail — it applies the colors of the first palette (the whole
resulting scene state agrees with applying palette 0) — yet it commits the
out-of-range index itself, so the committed palette index afterward does not
identify any palette entry, let alone the one whose colors were applied. -/
theorem applyPalette_out_of_range (i : ℤ) (s : SceneStyleState)
    (h : listGetInt paletteOptions i = none) :
    applyPalette i s = { applyPalette 0 s with currentPaletteIndex := i } ∧
    (applyPalette i s).currentPaletteIndex = i ∧
    listGetInt paletteOptions ((applyPalette i s).currentPaletteIndex) = none := by
  have h0 : listGetInt paletteOptions 0 = some auroraBloom := rfl
  refine ⟨?_, rfl, h⟩
  unfold applyPalette
  rw [h, h0]

/-- Witness for applyPalette_out_of_range at the out-of-range index 3 (the
palette list has entries 0..2). -/
theorem applyPalette_out_of_range_witness :
    applyPalette 3 sceneStyleStart
      = { applyPalette 0 sceneStyleStart with currentPaletteIndex := 3 } ∧
    (applyPalette 3 sceneStyleStart).currentPaletteIndex = 3 ∧
    listGetInt paletteOptions ((applyPalette 3 sceneStyleStart).currentPaletteIndex) = none :=
  applyPalette_out_of_range 3 sceneStyleStart (by decide)

/-! ### Simplex noise (C9) -/

/-- C9: noise2D is a pure, deterministic function of the generator state and
the inputs (x, y): two calls with identical permutation-table state and
identical inputs return identical noise values, and a call leaves the
generator state unchanged (the method only reads `this.perm`; the skew
constants derived from Math.sqrt (3) are abstracted by the parameter
sqrt3, for every value of which the property holds). -/
theorem noise2D_pure (sqrt3 : ℚ) (s1 s2 : SimplexNoiseState) (x y : ℚ)
    (h : s1.perm = s2.perm) :
    (noise2D sqrt3 s1 x y).1 = (noise2D sqrt3 s2 x y).1 ∧
    (noise2D sqrt3 s1 x y).2 = s1 := by
  obtain ⟨p1⟩ := s1
  obtain ⟨p2⟩ := s2
  cases h
  exact ⟨rfl, rfl⟩

/-- Witness for noise2D_pure at a concrete permutation table and the input
(1, 2). -/
theorem noise2D_pure_witness :
    (noise2D (3/2) simplexProbe 1 2).1 = (noise2D (3/2) simplexProbe 1 2).1 ∧
    (noise2D (3/2) simplexProbe 1 2).2 = simplexProbe :=
  noise2D_pure (3/2) simplexProbe simplexProbe 1 2 rfl

/-! ### Audio switching (C1, C2) -/

/-- C1 counterexample: in the four-event trace (switch to option 1; its
decode resolves — the token check passes, the playing source is stopped,
buffer 1 is bound and the task parks at the audio-context resume; switch to
option 0 — the highest issued token becomes 2; the resume of the parked
task resolves) the final response carries captured token 1, which is no longer
the highest issued token, yet it begins playback, creates an analyzer, and
commits the current audio index: the trace checker reports the violation of
the claimed ordering guarantee. -/
theorem switchAudio_stale_commit_cex :
    audioStaleSafe audioStart audioTraceStaleCommit = false ∧
    (audioRun audioStart audioTraceStaleCommit).currentAudioIndex = 1 ∧
    (audioRun audioStart audioTraceStaleCommit).audioRequestId = 2 ∧
    (audioRun audioStart audioTraceStaleCommit).playing = some 1 := by
  decide

/-- C1 (amended): the audio token is compared exactly once, when the decode
resolves — a response whose captured token is no longer the highest at that
point mutates no committed state (committed index, bound buffer, playing
source, analyzer all unchanged); but a response that passed that single check
commits unconditionally when its awaited resume resolves, playing whatever
buffer is bound at that moment and committing its own index, even if it was
superseded while parked at the resume. -/
theorem switchAudio_token_check_at_decode (c : AudioConfig) (t : ℕ) (task : AudioTask) :
    (findAudioTask c t .waitDecode = some task → t ≠ c.audioRequestId →
      (audioStep c (.decodeOk t)).currentAudioIndex = c.currentAudioIndex ∧
      (audioStep c (.decodeOk t)).boundBuffer = c.boundBuffer ∧
      (audioStep c (.decodeOk t)).playing = c.playing ∧
      (audioStep c (.decodeOk t)).analyser = c.analyser) ∧
    (findAudioTask c t .waitResume = some task →
      (audioStep c (.resumeOk t)).currentAudioIndex = task.index ∧
      (audioStep c (.resumeOk t)).playing = c.boundBuffer ∧
      (audioStep c (.resumeOk t)).analyser = c.boundBuffer) := by
  constructor
  · intro h hne
    simp [audioStep, h, hne]
  · intro h
    simp [audioStep, h]

/-- Witness for switchAudio_token_check_at_decode: a stale decode response
(token 1 while the counter is at 2) mutates nothing, and a parked resume
response commits its index regardless of the counter. -/
theorem switchAudio_token_check_at_decode_witness :
    ((audioStep audioCfgStaleDecode (.decodeOk 1)).currentAudioIndex
        = audioCfgStaleDecode.currentAudioIndex ∧
      (audioStep audioCfgStaleDecode (.decodeOk 1)).boundBuffer
        = audioCfgStaleDecode.boundBuffer ∧
      (audioStep audioCfgStaleDecode (.decodeOk 1)).playing = audioCfgStaleDecode.playing ∧
      (audioStep audioCfgStaleDecode (.decodeOk 1)).analyser = audioCfgStaleDecode.analyser) ∧
    ((audioStep audioCfgParkedResume (.resumeOk 1)).currentAudioIndex = 1 ∧
      (audioStep audioCfgParkedResume (.resumeOk 1)).playing
        = audioCfgParkedResume.boundBuffer ∧
      (audioStep audioCfgParkedResume (.resumeOk 1)).analyser
        = audioCfgParkedResume.boundBuffer) :=
  ⟨(switchAudio_token_check_at_decode audioCfgStaleDecode 1 ⟨1, 1, .waitDecode⟩).1
      (by decide) (by decide),
   (switchAudio_token_check_at_decode audioCfgParkedResume 1 ⟨1, 1, .waitResume⟩).2
      (by decide)⟩

/-- C2 counterexample: option 1 is fully committed and playing; then a switch
to option 0 passes the token check — which stops the playing audio and binds
buffer 0 before the resume is awaited — and the resume then rejects.  The
current audio index is indeed unchanged and the failure logged, but the
previously playing audio does NOT keep playing: playback ends up stopped,
refuting the claim. -/
theorem switchAudio_resume_reject_cex :
    (audioRun audioStart audioTracePlaying).playing = some 1 ∧
    (audioRun audioStart audioTraceResumeRejected).playing = none ∧
    (audioRun audioStart audioTraceResumeRejected).currentAudioIndex
      = (audioRun audioStart audioTracePlaying).currentAudioIndex ∧
    (audioRun audioStart audioTraceResumeRejected).failuresLogged = 1 ∧
    ¬((audioRun audioStart audioTraceResumeRejected).playing
        = (audioRun audioStart audioTracePlaying).playing) := by
  decide

/-- C2 (amended): when the audio-context resume rejects, no index is
committed — the committed audio index, bound buffer, playing source and
analyzer are all left as they were at the rejection, and the failure is only
logged; however the previously playing audio does not keep playing, because
the successful token check that preceded the resume had already stopped any
playing source and bound the new buffer. -/
theorem switchAudio_resume_failure_no_commit (c : AudioConfig) (t : ℕ) (task : AudioTask) :
    (findAudioTask c t .waitResume = some task →
      (audioStep c (.resumeFail t)).currentAudioIndex = c.currentAudioIndex ∧
      (audioStep c (.resumeFail t)).boundBuffer = c.boundBuffer ∧
      (audioStep c (.resumeFail t)).playing = c.playing ∧
      (audioStep c (.resumeFail t)).analyser = c.analyser ∧
      (audioStep c (.resumeFail t)).failuresLogged = c.failuresLogged + 1) ∧
    (findAudioTask c t .waitDecode = some task → t = c.audioRequestId →
      (audioStep c (.decodeOk t)).playing = none ∧
      (audioStep c (.decodeOk t)).boundBuffer = some task.index ∧
      (audioStep c (.decodeOk t)).currentAudioIndex = c.currentAudioIndex) := by
  constructor
  · intro h
    simp [audioStep, h]
  · intro h ht
    subst ht
    simp [audioStep, h]

/-- Witness for switchAudio_resume_failure_no_commit: a rejected resume at a
parked task changes nothing but the log counter, and a passing decode
response stops playback (option 0 was playing) and binds the new buffer. -/
theorem switchAudio_resume_failure_no_commit_witness :
    ((audioStep audioCfgParkedResume (.resumeFail 1)).currentAudioIndex
        = audioCfgParkedResume.currentAudioIndex ∧
      (audioStep audioCfgParkedResume (.resumeFail 1)).boundBuffer
        = audioCfgParkedResume.boundBuffer ∧
      (audioStep audioCfgParkedResume (.resumeFail 1)).playing
        = audioCfgParkedResume.playing ∧
      (audioStep audioCfgParkedResume (.resumeFail 1)).analyser
        = audioCfgParkedResume.analyser ∧
      (audioStep audioCfgParkedResume (.resumeFail 1)).failuresLogged
        = audioCfgParkedResume.failuresLogged + 1) ∧
    ((audioStep audioCfgFreshDecode (.decodeOk 1)).playing = none ∧
      (audioStep audioCfgFreshDecode (.decodeOk 1)).boundBuffer = some 1 ∧
      (audioStep audioCfgFreshDecode (.decodeOk 1)).currentAudioIndex
        = audioCfgFreshDecode.currentAudioIndex) :=
  ⟨(switchAudio_resume_failure_no_commit audioCfgParkedResume 1 ⟨1, 1, .waitResume⟩).1
      (by decide),
   (switchAudio_resume_failure_no_commit audioCfgFreshDecode 1 ⟨1, 1, .waitDecode⟩).2
      (by decide) (by decide)⟩

/-! ### Animation switching (C4) -/

lemma animStep_start_ready (c : AnimConfig) (i : ℕ)
    (h1 : c.supportsFBX = true) (h2 : c.gvrmReady = true) :
    animStep c (.start i)
      = { c with
          desiredAnimationIndex := i
          animationRequestId := c.animationRequestId + 1
          tasks := c.tasks ++ [(c.animationRequestId + 1, i)] } := by
  simp [animStep, h1, h2]

lemma animRun_starts (idxs : List ℕ) : ∀ (c : AnimConfig),
    c.supportsFBX = true → c.gvrmReady = true →
    (animRun c (idxs.map AnimEvent.start)).animationRequestId
        = c.animationRequestId + idxs.length ∧
    (animRun c (idxs.map AnimEvent.start)).currentAnimationIndex
        = c.currentAnimationIndex ∧
    (animRun c (idxs.map AnimEvent.start)).tasks
        = c.tasks ++ tokenize (c.animationRequestId + 1) idxs := by
  induction idxs with
  | nil =>
    intro c h1 h2
    simp [animRun, tokenize]
  | cons i rest ih =>
    intro c h1 h2
    have hfold : animRun c ((i :: rest).map AnimEvent.start)
        = animRun (animStep c (.start i)) (rest.map AnimEvent.start) := rfl
    rw [hfold, animStep_start_ready c i h1 h2]
    obtain ⟨e1, e2, e3⟩ := ih
      { c with
        desiredAnimationIndex := i
        animationRequestId := c.animationRequestId + 1
        tasks := c.tasks ++ [(c.animationRequestId + 1, i)] } h1 h2
    refine ⟨?_, ?_, ?_⟩
    · rw [e1]
      simp only [List.length_cons]
      omega
    · rw [e2]
    · rw [e3]
      simp [tokenize, List.append_assoc]

lemma tokenize_last_mem (idxs : List ℕ) : ∀ (t0 lastIdx : ℕ),
    idxs.getLast? = some lastIdx →
    (t0 + (idxs.length - 1), lastIdx) ∈ tokenize t0 idxs := by
  induction idxs with
  | nil => intro t0 lastIdx h; simp at h
  | cons i rest ih =>
    intro t0 lastIdx h
    cases rest with
    | nil =>
      simp at h
      subst h
      simp [tokenize]
    | cons j rest2 =>
      have h2 : (j :: rest2).getLast? = some lastIdx := by
        rw [← List.getLast?_cons_cons]
        exact h
      have hlen : t0 + ((i :: j :: rest2).length - 1)
          = (t0 + 1) + ((j :: rest2).length - 1) := by
        simp only [List.length_cons]
        omega
      rw [show tokenize t0 (i :: j :: rest2)
          = (t0, i) :: tokenize (t0 + 1) (j :: rest2) from rfl, hlen]
      exact List.mem_cons_of_mem _ (ih (t0 + 1) lastIdx h2)

lemma tokenize_last_unique (idxs : List ℕ) : ∀ (t0 : ℕ) (p : ℕ × ℕ),
    p ∈ tokenize t0 idxs → p.1 = t0 + (idxs.length - 1) →
    some p.2 = idxs.getLast? := by
  induction idxs with
  | nil => intro t0 p h _; simp [tokenize] at h
  | cons i rest ih =>
    intro t0 p hmem htok
    cases rest with
    | nil =>
      simp [tokenize] at hmem
      subst hmem
      rfl
    | cons j rest2 =>
      rw [show tokenize t0 (i :: j :: rest2)
          = (t0, i) :: tokenize (t0 + 1) (j :: rest2) from rfl] at hmem
      rcases List.mem_cons.mp hmem with hp | hp
      · exfalso
        subst hp
        simp only [List.length_cons] at htok
        simp at htok
      · have htok2 : p.1 = (t0 + 1) + ((j :: rest2).length - 1) := by
          simp only [List.length_cons] at htok ⊢
          omega
        have := ih (t0 + 1) p hp htok2
        rw [List.getLast?_cons_cons]
        exact this

lemma find?_token_unique (l : List (ℕ × ℕ)) (t v : ℕ) :
    (t, v) ∈ l → (∀ p ∈ l, p.1 = t → p.2 = v) →
    l.find? (fun p => p.1 == t) = some (t, v) := by
  induction l with
  | nil => intro h _; simp at h
  | cons q rest ih =>
    intro hmem huniq
    obtain ⟨q1, q2⟩ := q
    by_cases hq : q1 = t
    · have hq2 : q2 = v := huniq (q1, q2) (List.mem_cons_self _ _) hq
      subst hq
      subst hq2
      simp [List.find?]
    · have hmem2 : (t, v) ∈ rest := by
        rcases List.mem_cons.mp hmem with h | h
        · exfalso
          apply hq
          have := congrArg Prod.fst h
          simpa using this.symm
        · exact h
      have huniq2 : ∀ p ∈ rest, p.1 = t → p.2 = v :=
        fun p hp => huniq p (List.mem_cons_of_mem _ hp)
      have hqb : ((q1, q2).1 == t) = false := by simp [hq]
      simp only [List.find?, hqb]
      exact ih hmem2 huniq2

lemma animRun_stale (es : List AnimEvent) : ∀ (c : AnimConfig) (n lastIdx : ℕ),
    c.animationRequestId = n →
    (n, lastIdx) ∈ c.tasks →
    (∀ p ∈ c.tasks, p.1 = n → p.2 = lastIdx) →
    (∀ e ∈ es, isStaleCompletion n e = true) →
    (animRun c es).animationRequestId = n ∧
    (animRun c es).currentAnimationIndex = c.currentAnimationIndex ∧
    (n, lastIdx) ∈ (animRun c es).tasks ∧
    (∀ p ∈ (animRun c es).tasks, p.1 = n → p.2 = lastIdx) := by
  induction es with
  | nil => intro c n lastIdx h1 h2 h3 _; exact ⟨h1, rfl, h2, h3⟩
  | cons e rest ih =>
    intro c n lastIdx h1 h2 h3 hall
    have he := hall e (List.mem_cons_self _ _)
    have hrest : ∀ e2 ∈ rest, isStaleCompletion n e2 = true :=
      fun e2 hx => hall e2 (List.mem_cons_of_mem _ hx)
    have hstep : (animStep c e).animationRequestId = n ∧
        (animStep c e).currentAnimationIndex = c.currentAnimationIndex ∧
        (n, lastIdx) ∈ (animStep c e).tasks ∧
        (∀ p ∈ (animStep c e).tasks, p.1 = n → p.2 = lastIdx) := by
      cases e with
      | start i => simp [isStaleCompletion] at he
      | completeOk t =>
        have ht : t < n := by simpa [isStaleCompletion] using he
        cases hf : c.tasks.find? (fun p => p.1 == t) with
        | none =>
          have hid : animStep c (.completeOk t) = c := by simp [animStep, hf]
          rw [hid]
          exact ⟨h1, rfl, h2, h3⟩
        | some task =>
          have hne : ¬(t = c.animationRequestId) := by rw [h1]; omega
          have hid : animStep c (.completeOk t)
              = { c with tasks := c.tasks.filter (fun p => !(p.1 == t)) } := by
            simp [animStep, hf, hne]
          rw [hid]
          refine ⟨h1, rfl, ?_, ?_⟩
          · apply List.mem_filter.mpr
            refine ⟨h2, ?_⟩
            simp
            omega
          · intro p hp hpt
            exact h3 p (List.mem_filter.mp hp).1 hpt
      | completeFail t =>
        have ht : t < n := by simpa [isStaleCompletion] using he
        cases hf : c.tasks.find? (fun p => p.1 == t) with
        | none =>
          have hid : animStep c (.completeFail t) = c := by simp [animStep, hf]
          rw [hid]
          exact ⟨h1, rfl, h2, h3⟩
        | some task =>
          have hid : animStep c (.completeFail t)
              = { c with tasks := c.tasks.filter (fun p => !(p.1 == t))
                         failuresLogged := c.failuresLogged + 1 } := by
            simp [animStep, hf]
          rw [hid]
          refine ⟨h1, rfl, ?_, ?_⟩
          · apply List.mem_filter.mpr
            refine ⟨h2, ?_⟩
            simp
            omega
          · intro p hp hpt
            exact h3 p (List.mem_filter.mp hp).1 hpt
    obtain ⟨s1, s2, s3, s4⟩ := hstep
    have hres := ih (animStep c e) n lastIdx s1 s3 s4 hrest
    rw [show animRun c (e :: rest) = animRun (animStep c e) rest from rfl]
    refine ⟨hres.1, ?_, hres.2.2.1, hres.2.2.2⟩
    rw [hres.2.1, s2]

/-- C4: for a burst of N rapid animation-switch requests with indices
i1..iN issued from a ready extended avatar, then any sequence of superseded
completions (successful or failing, in any order), the committed animation
index never changes — every superseded response is discarded silently — and
when the clip-change operation of request iN itself finally resolves (its
captured token N equals the current token of the controller) the committed index becomes
iN, and only that response ever commits. -/
theorem switchAnimation_latest_wins (idxs : List ℕ) (lastIdx : ℕ) (es : List AnimEvent)
    (hlast : idxs.getLast? = some lastIdx)
    (hes : ∀ e ∈ es, isStaleCompletion idxs.length e = true) :
    (animRun (animRun animReady (idxs.map AnimEvent.start)) es).currentAnimationIndex
        = animReady.currentAnimationIndex ∧
    (animStep (animRun (animRun animReady (idxs.map AnimEvent.start)) es)
        (.completeOk idxs.length)).currentAnimationIndex = lastIdx := by
  have hne : idxs ≠ [] := by
    intro hx
    rw [hx] at hlast
    simp at hlast
  have hpos : 0 < idxs.length := List.length_pos.mpr hne
  obtain ⟨e1, e2, e3⟩ := animRun_starts idxs animReady rfl rfl
  have e1' : (animRun animReady (idxs.map AnimEvent.start)).animationRequestId
      = idxs.length := by
    rw [e1]
    simp [animReady]
  have hmem : (idxs.length, lastIdx) ∈ (animRun animReady (idxs.map AnimEvent.start)).tasks := by
    rw [e3]
    have h10 : 1 + (idxs.length - 1) = idxs.length := by omega
    have := tokenize_last_mem idxs 1 lastIdx hlast
    rw [h10] at this
    simpa [animReady] using this
  have huniq : ∀ p ∈ (animRun animReady (idxs.map AnimEvent.start)).tasks,
      p.1 = idxs.length → p.2 = lastIdx := by
    intro p hp hpt
    rw [e3] at hp
    simp [animReady] at hp
    have hpt2 : p.1 = 1 + (idxs.length - 1) := by omega
    have := tokenize_last_unique idxs 1 p hp hpt2
    rw [hlast] at this
    exact Option.some.inj this
  obtain ⟨r1, r2, r3, r4⟩ :=
    animRun_stale es (animRun animReady (idxs.map AnimEvent.start))
      idxs.length lastIdx e1' hmem huniq hes
  constructor
  · rw [r2, e2]
  · have hfind := find?_token_unique _ idxs.length lastIdx r3 r4
    simp only [animStep, hfind, if_pos r1.symm]

/-- Witness for switchAnimation_latest_wins: requests [2, 0, 3] (tokens
1, 2, 3), two stale completions out of order, then token 3 resolves and
commits index 3. -/
theorem switchAnimation_latest_wins_witness :
    (animRun (animRun animReady ([2, 0, 3].map AnimEvent.start))
        [.completeOk 1, .completeFail 2, .completeOk 1]).currentAnimationIndex
      = animReady.currentAnimationIndex ∧
    (animStep (animRun (animRun animReady ([2, 0, 3].map AnimEvent.start))
        [.completeOk 1, .completeFail 2, .completeOk 1])
        (.completeOk 3)).currentAnimationIndex = 3 :=
  switchAnimation_latest_wins [2, 0, 3] 3 [.completeOk 1, .completeFail 2, .completeOk 1]
    (by decide) (by decide)

/-! ### Avatar acquisition (C6, C7) -/

lemma acquireGo_failed_iff (env : AcqEnv) (cs : List String) :
    ∀ (le : Option String) (st : AcqState),
    ((acquireGo env cs le st).1.isFailed = true
      ↔ cs.all (fun c => candidateFails env c) = true) := by
  induction cs with
  | nil =>
    intro le st
    simp [acquireGo, LoadOutcome.isFailed]
  | cons c rest ih =>
    intro le st
    cases hm : env.moduleAvailable with
    | true =>
      cases hg : env.gvrmLoad c with
      | ok h =>
        simp [acquireGo, hm, hg, candidateFails, LoadOutcome.isFailed]
      | failed e =>
        cases hf : env.fallbackLoad c with
        | ok h =>
          simp [acquireGo, hm, hg, hf, candidateFails, LoadOutcome.isFailed]
        | failed e2 =>
          have hstep : acquireGo env (c :: rest) le st = acquireGo env rest (some e2) st := by
            simp [acquireGo, hm, hg, hf]
          rw [hstep, ih (some e2) st]
          simp [candidateFails, hm, hg, hf, LoadOutcome.isFailed]
    | false =>
      cases hf : env.fallbackLoad c with
      | ok h =>
        simp [acquireGo, hm, hf, candidateFails, LoadOutcome.isFailed]
      | failed e2 =>
        have hstep : acquireGo env (c :: rest) le st = acquireGo env rest (some e2) st := by
          simp [acquireGo, hm, hf]
        rw [hstep, ih (some e2) st]
        simp [candidateFails, hm, hf, LoadOutcome.isFailed]

lemma acquireGo_all_failed_last (env : AcqEnv) (cs : List String) :
    ∀ (le : Option String) (st : AcqState) (clast : String),
    cs.getLast? = some clast →
    cs.all (fun c => candidateFails env c) = true →
    (env.fallbackLoad clast).isFailed = true ∧
    outcomeErr (acquireGo env cs le st).1 = outcomeErr (env.fallbackLoad clast) := by
  induction cs with
  | nil => intro le st clast h _; simp at h
  | cons c rest ih =>
    intro le st clast hlast hall
    simp only [List.all_cons, Bool.and_eq_true] at hall
    obtain ⟨hc, hrest⟩ := hall
    have hfb : (env.fallbackLoad c).isFailed = true := by
      simp only [candidateFails, Bool.and_eq_true] at hc
      exact hc.2
    cases rest with
    | nil =>
      have hcl : clast = c := by
        simp at hlast
        exact hlast.symm
      subst hcl
      refine ⟨hfb, ?_⟩
      cases hm : env.moduleAvailable with
      | true =>
        have hgv : (env.gvrmLoad clast).isFailed = true := by
          simp only [candidateFails, Bool.and_eq_true, hm] at hc
          simpa using hc.1
        cases hg : env.gvrmLoad clast with
        | ok h => rw [hg] at hgv; simp [LoadOutcome.isFailed] at hgv
        | failed e =>
          cases hf : env.fallbackLoad clast with
          | ok h => rw [hf] at hfb; simp [LoadOutcome.isFailed] at hfb
          | failed e2 =>
            simp [acquireGo, hm, hg, hf, outcomeErr]
      | false =>
        cases hf : env.fallbackLoad clast with
        | ok h => rw [hf] at hfb; simp [LoadOutcome.isFailed] at hfb
        | failed e2 =>
          simp [acquireGo, hm, hf, outcomeErr]
    | cons c2 rest2 =>
      have hlast2 : (c2 :: rest2).getLast? = some clast := by
        rw [← List.getLast?_cons_cons]
        exact hlast
      cases hf : env.fallbackLoad c with
      | ok h => rw [hf] at hfb; simp [LoadOutcome.isFailed] at hfb
      | failed e2 =>
        cases hm : env.moduleAvailable with
        | true =>
          have hgv : (env.gvrmLoad c).isFailed = true := by
            simp only [candidateFails, Bool.and_eq_true, hm] at hc
            simpa using hc.1
          cases hg : env.gvrmLoad c with
          | ok h => rw [hg] at hgv; simp [LoadOutcome.isFailed] at hgv
          | failed e =>
            have hstep : acquireGo env (c :: c2 :: rest2) le st
                = acquireGo env (c2 :: rest2) (some e2) st := by
              simp [acquireGo, hm, hg, hf]
            rw [hstep]
            exact ih (some e2) st clast hlast2 hrest
        | false =>
          have hstep : acquireGo env (c :: c2 :: rest2) le st
              = acquireGo env (c2 :: rest2) (some e2) st := by
            simp [acquireGo, hm, hf]
          rw [hstep]
          exact ih (some e2) st clast hlast2 hrest

/-- C6: acquisition fails exactly when every candidate fails on every backend
(the extended backend counts as failing a candidate when the backend module
itself is unavailable); in that case the error thrown is the last recorded
per-candidate error — the fallback-load error of the final candidate — and the
init-level catch then sets the capability record to supportsFBX = false,
mode = error ("error" in the code). -/
theorem loadGvrmAvatar_exhaustion (env : AcqEnv) (candidates : List String) (clast : String) :
    ((loadGvrmAvatar env candidates).1.isFailed
        = candidates.all (fun c => candidateFails env c)) ∧
    (candidates.getLast? = some clast →
      candidates.all (fun c => candidateFails env c) = true →
      (env.fallbackLoad clast).isFailed = true ∧
      outcomeErr (loadGvrmAvatar env candidates).1 = outcomeErr (env.fallbackLoad clast)) ∧
    (candidates.all (fun c => candidateFails env c) = true →
      (initAvatarLoad env candidates).2.caps = ⟨false, "error"⟩) := by
  have hiff := acquireGo_failed_iff env candidates none acqStart
  have h1 : (loadGvrmAvatar env candidates).1.isFailed
      = candidates.all (fun c => candidateFails env c) := by
    unfold loadGvrmAvatar
    cases hb : candidates.all (fun c => candidateFails env c) with
    | true => exact hiff.mpr hb
    | false =>
      cases hf2 : (acquireGo env candidates none acqStart).1.isFailed with
      | false => rfl
      | true =>
        rw [hiff.mp hf2] at hb
        exact hb
  refine ⟨h1, ?_, ?_⟩
  · intro hlast hall
    have := acquireGo_all_failed_last env candidates none acqStart clast hlast hall
    simpa [loadGvrmAvatar] using this
  · intro hall
    have hfail : (loadGvrmAvatar env candidates).1.isFailed = true := by
      rw [h1, hall]
    unfold initAvatarLoad
    cases hr : (loadGvrmAvatar env candidates).1 with
    | ok h => rw [hr] at hfail; simp [LoadOutcome.isFailed] at hfail
    | failed e => simp [hr]

/-- Witness for loadGvrmAvatar_exhaustion on a concrete two-candidate
environment where every candidate fails on both backends. -/
theorem loadGvrmAvatar_exhaustion_witness :
    ((loadGvrmAvatar acqEnvAllFail ["a", "b"]).1.isFailed
        = (["a", "b"].all (fun c => candidateFails acqEnvAllFail c))) ∧
    ((acqEnvAllFail.fallbackLoad "b").isFailed = true ∧
      outcomeErr (loadGvrmAvatar acqEnvAllFail ["a", "b"]).1
        = outcomeErr (acqEnvAllFail.fallbackLoad "b")) ∧
    (initAvatarLoad acqEnvAllFail ["a", "b"]).2.caps = ⟨false, "error"⟩ :=
  ⟨(loadGvrmAvatar_exhaustion acqEnvAllFail ["a", "b"] "b").1,
   (loadGvrmAvatar_exhaustion acqEnvAllFail ["a", "b"] "b").2.1 (by decide) (by decide),
   (loadGvrmAvatar_exhaustion acqEnvAllFail ["a", "b"] "b").2.2 (by decide)⟩

/-- C7: with two candidates where the first fails on both the extended and
the fallback backend and the second fails on the extended backend but
succeeds on the fallback backend, acquisition returns the fallback avatar
handle (a SimpleVRMWrapper: supportsFBX = false, kind "simple-vrm") and the
capability record ends as supportsFBX = false, mode = fallback
("simple-vrm" in the code), written exactly once during the whole run. -/
theorem loadGvrmAvatar_second_candidate_fallback (env : AcqEnv) (c1 c2 : String)
    (h : AvatarHandle) (e1 e2 e3 : String)
    (hm : env.moduleAvailable = true)
    (hg1 : env.gvrmLoad c1 = .failed e1)
    (hf1 : env.fallbackLoad c1 = .failed e2)
    (hg2 : env.gvrmLoad c2 = .failed e3)
    (hf2 : env.fallbackLoad c2 = .ok h) :
    initAvatarLoad env [c1, c2]
      = (.ok { h with supportsFBX := false, kind := "simple-vrm" },
         ⟨⟨false, "simple-vrm"⟩, 1⟩) := by
  simp [initAvatarLoad, loadGvrmAvatar, acquireGo, acqStart, hm, hg1, hf1, hg2, hf2]

/-- Witness for loadGvrmAvatar_second_candidate_fallback on the concrete
environment acqEnvSecondFallback. -/
theorem loadGvrmAvatar_second_candidate_fallback_witness :
    initAvatarLoad acqEnvSecondFallback ["a", "b"]
      = (.ok { source := "b", kind := "simple-vrm", supportsFBX := false },
         ⟨⟨false, "simple-vrm"⟩, 1⟩) :=
  loadGvrmAvatar_second_candidate_fallback acqEnvSecondFallback "a" "b"
    ⟨"b", "wrapper", false⟩ "gvrm load rejected" ("fallback rejected for " ++ "a")
    "gvrm load rejected" (by decide) (by decide) (by decide) (by decide) (by decide)
